import Mathlib

/-!
Shallow embedding of the miniredis server (src/miniredis/server.py, a
Python 2 program), with the command handlers translated as state-passing
functions over an explicit server state.  Python dicts become association
lists; the expiration table is keyed by the (database index, key) pair,
mirroring the server's string keys built by the format "%s %s" applied to
(client.db, key) — since the database index is an integer (no space in its
decimal form), that encoding is injective and the pair is a faithful key.

The dispatcher hands every command argument to a handler as a str read off
the wire; arguments are therefore modelled as a `PyArg` (str or int, the
latter for intra-server calls), and the dynamic-type behaviours this causes
are modelled where the claims reach them: `time.time() + ttl` raises
`TypeError` on a str, `handle_expireat` stores its raw string argument,
`self.timeouts[k]*1000` on such a string is string repetition, and Python 2
orders every str above every number, so a string deadline never compares
`<=` the clock.  The wall clock (time.time()) is modelled as an
integer-second value passed explicitly as `now`.  Handlers that can raise a
Python exception return a `PyResult`; per the dispatch loops in
`run`/`gevent_handler`, an uncaught exception tears the connection down.
Python regexes appear in two places and are modelled only on the fragments
the theorems use, stated precisely at `reAccept` (the `^...$`/`r.match`
combination of `handle_keys`, with `$` accepting one trailing newline and
`.` refusing newlines), `reSearchB` (the unanchored `r.search` of the
src/redis variant) and `reMatchLiteral` (metacharacter-free patterns in
`handle_publish`; anything else is mapped to `none`, about which nothing is
proved).
-/

namespace MiniRedis

/-- Python dict lookup (`d[k]` as an Option, also `d.get(k)`), on an
association list. -/
def tlookup {α β : Type} [DecidableEq α] : List (α × β) → α → Option β
  | [], _ => none
  | (a, b) :: t, k => if a = k then some b else tlookup t k

/-- Python dict assignment `d[k] = v`: replace the binding if present,
otherwise append a new one. -/
def tinsert {α β : Type} [DecidableEq α] : List (α × β) → α → β → List (α × β)
  | [], k, v => [(k, v)]
  | (a, b) :: t, k, v => if a = k then (k, v) :: t else (a, b) :: tinsert t k v

/-- Python dict deletion `del d[k]` (removing every binding of `k`). -/
def tdelete {α β : Type} [DecidableEq α] : List (α × β) → α → List (α × β)
  | [], _ => []
  | (a, b) :: t, k => if a = k then tdelete t k else (a, b) :: tdelete t k

theorem tlookup_tdelete_self {α β : Type} [DecidableEq α]
    (l : List (α × β)) (k : α) : tlookup (tdelete l k) k = none := by
  induction l with
  | nil => rfl
  | cons p t ih =>
    obtain ⟨a, b⟩ := p
    by_cases h : a = k
    · simp [tdelete, h, ih]
    · simp [tdelete, tlookup, h, ih]

theorem tlookup_tdelete_ne {α β : Type} [DecidableEq α]
    (l : List (α × β)) (k j : α) (h : k ≠ j) :
    tlookup (tdelete l k) j = tlookup l j := by
  induction l with
  | nil => rfl
  | cons p t ih =>
    obtain ⟨a, b⟩ := p
    by_cases ha : a = k
    · subst ha; simp [tdelete, tlookup, h, ih]
    · by_cases hj : a = j
      · subst hj; simp [tdelete, tlookup, Ne.symm h]
      · simp [tdelete, tlookup, ha, hj, ih]

theorem tdelete_idem {α β : Type} [DecidableEq α]
    (l : List (α × β)) (k : α) : tdelete (tdelete l k) k = tdelete l k := by
  induction l with
  | nil => rfl
  | cons p t ih =>
    obtain ⟨a, b⟩ := p
    by_cases h : a = k
    · simp [tdelete, h, ih]
    · simp [tdelete, h, ih]

theorem tlookup_tinsert_self {α β : Type} [DecidableEq α]
    (l : List (α × β)) (k : α) (v : β) : tlookup (tinsert l k v) k = some v := by
  induction l with
  | nil => simp [tinsert, tlookup]
  | cons p t ih =>
    obtain ⟨a, b⟩ := p
    by_cases h : a = k
    · simp [tinsert, h, tlookup]
    · simp [tinsert, tlookup, h, ih]

theorem tlookup_tinsert_ne {α β : Type} [DecidableEq α]
    (l : List (α × β)) (k j : α) (v : β) (h : k ≠ j) :
    tlookup (tinsert l k v) j = tlookup l j := by
  induction l with
  | nil => simp [tinsert, tlookup, h]
  | cons p t ih =>
    obtain ⟨a, b⟩ := p
    by_cases ha : a = k
    · subst ha; simp [tinsert, tlookup, h]
    · simp [tinsert, tlookup, ha, ih]

/-- A value stored in a table: the Python objects the handlers put there
(`str`, `collections.deque`, `dict`, and the `int` that `handle_incrby`
assigns). -/
inductive Value : Type
  | str (s : String)
  | list (l : List String)
  | hash (h : List (String × String))
  | int (n : Int)
deriving DecidableEq

/-- A handler return value as the `dump` method classifies it:  Python `True`
becomes `+OK`, `False` is silent, ints / strings / lists / messages / errors
map to their RESP encodings, and anything else (`None`, a dict) falls through
to the literal text `return type not yet implemented`, modelled `other`. -/
inductive Reply : Type
  | ok
  | silent
  | int (n : Int)
  | bulk (s : String)
  | nil
  | nilArray
  | array (items : List String)
  | msg (s : String)
  | err (s : String)
  | other
deriving DecidableEq

/-- Python exceptions the handlers can raise. -/
inductive PyErr : Type
  | keyError
  | typeError
  | attributeError
  | valueError
deriving DecidableEq

/-- Outcome of a dispatched handler: a returned value, or an uncaught
exception. -/
inductive PyResult : Type
  | ret (r : Reply)
  | exn (e : PyErr)
deriving DecidableEq

/-- An argument as a handler receives it: the dispatcher passes RESP bulk
strings, while intra-server calls (`handle_incr`) pass Python ints. -/
inductive PyArg : Type
  | pstr (s : String)
  | pint (n : Int)
deriving DecidableEq

/-- Index of an entry of `self.tables`.  `select` stores tables under the
integer `int(db)`, but `handle_move` indexes `self.tables` with the raw
string argument, so the dict mixes both key types; the sum captures that. -/
inductive DbIdx : Type
  | num (n : Int)
  | sidx (s : String)
deriving DecidableEq

abbrev Key := String
abbrev Table := List (Key × Value)

/-- A value stored in `self.timeouts`.  The numeric paths
(`time.time() + ttl` with a numeric `ttl`) store a float, modelled on the
integer-second clock; but the dispatcher hands every argument to a handler
as a `str`, so `handle_expireat` — the only expiration writer that does not
crash on a string argument — stores the raw string. -/
inductive TVal : Type
  | tstr (s : String)
  | tnum (n : Int)
deriving DecidableEq

/-- The wire argument `when`/`ttl` as stored: `handle_expireat` assigns it
unchanged. -/
def tvalOfArg : PyArg → TVal
  | PyArg.pstr w => TVal.tstr w
  | PyArg.pint n => TVal.tnum n

/-- Python 2 `deadline <= time.time()`: a same-type comparison for numbers,
while a `str` compared with a number orders by type name, so every string
is strictly greater than every float — the test is always false for a
string deadline. -/
def pyLeNow : TVal → Int → Bool
  | TVal.tnum d, now => d ≤ now
  | TVal.tstr _, _ => false

/-- The server state the claims range over: `self.tables` and
`self.timeouts`. -/
structure SState : Type where
  tables : List (DbIdx × Table)
  timeouts : List ((Int × Key) × TVal)
deriving DecidableEq

/-- The table a client selected into database `i` operates on. -/
def getTable (s : SState) (i : DbIdx) : Table := (tlookup s.tables i).getD []

/-- Write back a (mutated) table under index `i`. -/
def setTable (s : SState) (i : DbIdx) (t : Table) : SState :=
  { s with tables := tinsert s.tables i t }

theorem getTable_setTable_self (s : SState) (i : DbIdx) (t : Table) :
    getTable (setTable s i t) i = t := by
  simp [getTable, setTable, tlookup_tinsert_self]

theorem getTable_setTable_ne (s : SState) (i j : DbIdx) (t : Table) (h : i ≠ j) :
    getTable (setTable s i t) j = getTable s j := by
  simp [getTable, setTable, tlookup_tinsert_ne _ _ _ _ h]

theorem timeouts_setTable (s : SState) (i : DbIdx) (t : Table) :
    (setTable s i t).timeouts = s.timeouts := rfl

/-- Value of a list of decimal digit characters, `none` if empty or not all
digits. -/
def digitsVal (l : List Char) : Option Nat :=
  if l.isEmpty then none
  else if l.all Char.isDigit then
    some (l.foldl (fun a c => a * 10 + (c.toNat - 48)) 0)
  else none

/-- Whitespace stripped from both ends of a character sequence. -/
def stripWs (l : List Char) : List Char :=
  ((l.dropWhile Char.isWhitespace).reverse.dropWhile Char.isWhitespace).reverse

/-- Python `int(s)` on a string: optional surrounding whitespace, optional
sign, a non-empty run of decimal digits; `none` models the `ValueError`. -/
def pyParseInt (s : String) : Option Int :=
  match stripWs s.data with
  | '-' :: rest => (digitsVal rest).map (fun n => -(n : Int))
  | '+' :: rest => (digitsVal rest).map (fun n => (n : Int))
  | l => (digitsVal l).map (fun n => (n : Int))

/-- Python `s * 1000` on a string: the string repeated. -/
def strRepeat (w : String) (n : Nat) : String :=
  String.mk (List.flatten (List.replicate n w.data))

/-- `handle_persist`: `try: del self.timeouts["%s %s" % (client.db,key)]
except: pass` — then falls off the end, returning Python `None`
(RESP-unencodable, hence `Reply.other`). -/
def handle_persist (s : SState) (db : Int) (key : Key) : SState × Reply :=
  ({ s with timeouts := tdelete s.timeouts (db, key) }, Reply.other)

/-- `handle_del`: persist first, then `0` if the key is absent, else delete
it and return `1`. -/
def handle_del (s : SState) (db : Int) (key : Key) : SState × Reply :=
  let s := (handle_persist s db key).1
  match tlookup (getTable s (DbIdx.num db)) key with
  | none => (s, Reply.int 0)
  | some _ =>
      (setTable s (DbIdx.num db) (tdelete (getTable s (DbIdx.num db)) key), Reply.int 1)

/-- `check_ttl`: if `(db, key)` has a deadline `<=` the current time under
Python 2 comparison (`pyLeNow` — never true for a string deadline), delete
the key (which also removes the entry). -/
def check_ttl (s : SState) (now : Int) (db : Int) (key : Key) : SState :=
  match tlookup s.timeouts (db, key) with
  | some d => if pyLeNow d now then (handle_del s db key).1 else s
  | none => s

/-- `handle_expire`: `0` without changes when the key is absent; otherwise
`time.time() + ttl` — a `TypeError` when `ttl` is the str the dispatcher
passes (nothing is written and the exception escapes), a numeric deadline
when a number is passed. -/
def handle_expire (s : SState) (now : Int) (db : Int) (key : Key) (ttl : PyArg) :
    SState × PyResult :=
  match tlookup (getTable s (DbIdx.num db)) key with
  | none => (s, PyResult.ret (Reply.int 0))
  | some _ =>
    match ttl with
    | PyArg.pstr _ => (s, PyResult.exn PyErr.typeError)
    | PyArg.pint n =>
        ({ s with timeouts := tinsert s.timeouts (db, key) (TVal.tnum (now + n)) },
         PyResult.ret (Reply.int 1))

/-- `handle_expireat`: `0` without changes when the key is absent; otherwise
the argument `when` is stored unchanged — on the wire that is the raw
string. -/
def handle_expireat (s : SState) (db : Int) (key : Key) (when : PyArg) :
    SState × PyResult :=
  match tlookup (getTable s (DbIdx.num db)) key with
  | none => (s, PyResult.ret (Reply.int 0))
  | some _ =>
      ({ s with timeouts := tinsert s.timeouts (db, key) (tvalOfArg when) },
       PyResult.ret (Reply.int 1))

/-- `handle_ttl`: `-2` when the key is absent, `-1` when it has no timeout
entry, and otherwise `int(self.timeouts[k])` — the stored ABSOLUTE deadline
(truncated for a float, parsed for the string `handle_expireat` stores — a
`ValueError` escapes for an unparsable one), with no subtraction of the
current time. -/
def handle_ttl (s : SState) (db : Int) (key : Key) : PyResult :=
  match tlookup (getTable s (DbIdx.num db)) key with
  | none => PyResult.ret (Reply.int (-2))
  | some _ =>
    match tlookup s.timeouts (db, key) with
    | none => PyResult.ret (Reply.int (-1))
    | some (TVal.tnum d) => PyResult.ret (Reply.int d)
    | some (TVal.tstr w) =>
      match pyParseInt w with
      | some n => PyResult.ret (Reply.int n)
      | none => PyResult.exn PyErr.valueError

/-- `handle_pttl`: `-2` / `-1` as for TTL, and otherwise
`int(self.timeouts[k]*1000)` — deadline times 1000 for a numeric deadline,
but for the string deadline `handle_expireat` stores, `*1000` is string
REPETITION, so the reply is `int` of the deadline string repeated 1000
times. -/
def handle_pttl (s : SState) (db : Int) (key : Key) : PyResult :=
  match tlookup (getTable s (DbIdx.num db)) key with
  | none => PyResult.ret (Reply.int (-2))
  | some _ =>
    match tlookup s.timeouts (db, key) with
    | none => PyResult.ret (Reply.int (-1))
    | some (TVal.tnum d) => PyResult.ret (Reply.int (d * 1000))
    | some (TVal.tstr w) =>
      match pyParseInt (strRepeat w 1000) with
      | some n => PyResult.ret (Reply.int n)
      | none => PyResult.exn PyErr.valueError

/-- `handle_rename`: `client.table[newkey] = client.table[key]` (a `KeyError`
when `key` is absent); then the TTL-transfer block, which assigns
`self.timeouts["%s %s" % (client.db,key)] = self.timeouts[k]` — the SAME key
`k` it read from — and deletes `k`; then deletes the old table entry and
returns `True`. -/
def handle_rename (s : SState) (db : Int) (key newkey : Key) : SState × PyResult :=
  match tlookup (getTable s (DbIdx.num db)) key with
  | none => (s, PyResult.exn PyErr.keyError)
  | some v =>
    let s := setTable s (DbIdx.num db) (tinsert (getTable s (DbIdx.num db)) newkey v)
    let s :=
      match tlookup s.timeouts (db, key) with
      | some d =>
          { s with timeouts := tdelete (tinsert s.timeouts (db, key) d) (db, key) }
      | none => s
    let s := setTable s (DbIdx.num db) (tdelete (getTable s (DbIdx.num db)) key)
    (s, PyResult.ret Reply.ok)

/-- Modelled from the spec: the Snapshot Store (§4.A `load`) "returns empty
structures if the snapshot is absent"; `haystack.py` is not under `src`, so
`self.meta.get(db, \x7b\x7d)` is modelled as yielding the empty table. -/
def metaGet (_i : DbIdx) : Table := []

/-- `if db not in self.tables: self.tables[db] = self.meta.get(db, ...)` —
ensure an entry exists under index `i`, loading from the snapshot store. -/
def materialize (s : SState) (i : DbIdx) : SState :=
  if (tlookup s.tables i).isNone then
    { s with tables := tinsert s.tables i (metaGet i) }
  else s

/-- `handle_move`: `0` when the key is absent from the source table;
otherwise persist the key's timeout, materialize `self.tables[db]` — indexed
by the RAW STRING argument, not `int(db)` — then `0` when the key already
exists there, else copy the value over, delete it from the source table and
return `1`. -/
def handle_move (s : SState) (db : Int) (key : Key) (dbArg : String) :
    SState × Reply :=
  match tlookup (getTable s (DbIdx.num db)) key with
  | none => (s, Reply.int 0)
  | some v =>
    let s := (handle_persist s db key).1
    let s := materialize s (DbIdx.sidx dbArg)
    match tlookup (getTable s (DbIdx.sidx dbArg)) key with
    | some _ => (s, Reply.int 0)
    | none =>
      let s := setTable s (DbIdx.sidx dbArg) (tinsert (getTable s (DbIdx.sidx dbArg)) key v)
      let s := setTable s (DbIdx.num db) (tdelete (getTable s (DbIdx.num db)) key)
      (s, Reply.int 1)

/-- `handle_flushdb`: `client.table.clear()` — the selected table is emptied
in place; `self.timeouts` is not touched. -/
def handle_flushdb (s : SState) (db : Int) : SState × Reply :=
  (setTable s (DbIdx.num db) [], Reply.ok)

/-- `handle_flushall`: clears every materialized table in place;
`self.timeouts` is not touched. -/
def handle_flushall (s : SState) : SState × Reply :=
  ({ s with tables := s.tables.map (fun p => (p.1, [])) }, Reply.ok)

/-- `handle_set`: persist, store the string, return `True`. -/
def handle_set (s : SState) (db : Int) (key : Key) (data : String) : SState × Reply :=
  let s := (handle_persist s db key).1
  (setTable s (DbIdx.num db) (tinsert (getTable s (DbIdx.num db)) key (Value.str data)), Reply.ok)

/-- `handle_setnx`: `0` and no change when the key exists; otherwise store
and return `1`.  It does not touch `self.timeouts`. -/
def handle_setnx (s : SState) (db : Int) (key : Key) (data : String) : SState × Reply :=
  match tlookup (getTable s (DbIdx.num db)) key with
  | some _ => (s, Reply.int 0)
  | none =>
      (setTable s (DbIdx.num db) (tinsert (getTable s (DbIdx.num db)) key (Value.str data)), Reply.int 1)

/-- `str(x)` for a stored value, as far as the handlers that are in scope
here need it.  The Python textual form of a deque or dict is not modelled
exactly (no claim evaluates it); these branches only record that some string
is produced. -/
def pyStr : Value → String
  | Value.str s => s
  | Value.int n => toString n
  | Value.list _ => "<deque>"
  | Value.hash _ => "<dict>"

/-- `handle_getset`: persist, read the old value (`BAD_VALUE` and no store
when it is a deque, nil bulk when absent, its `str` otherwise), store the new
string, return the old value. -/
def handle_getset (s : SState) (db : Int) (key : Key) (data : String) : SState × Reply :=
  let s := (handle_persist s db key).1
  match tlookup (getTable s (DbIdx.num db)) key with
  | some (Value.list _) =>
      (s, Reply.err ("Operation against a key holding the wrong kind of value"))
  | old =>
    let reply := match old with
      | some v => Reply.bulk (pyStr v)
      | none => Reply.nil
    (setTable s (DbIdx.num db) (tinsert (getTable s (DbIdx.num db)) key (Value.str data)), reply)

/-- Python `int(x)` on a stored value: ints pass through, strings are parsed
(`ValueError` when malformed), deques and dicts raise `TypeError`; both
failure modes land in the same `except` clause, so `none` covers them. -/
def valToInt : Value → Option Int
  | Value.str s => pyParseInt s
  | Value.int n => some n
  | Value.list _ => none
  | Value.hash _ => none

/-- Python `int(by)` on a handler argument. -/
def argToInt : PyArg → Option Int
  | PyArg.pstr s => pyParseInt s
  | PyArg.pint n => some n

/-- `handle_incrby`: after `check_ttl`, the `try` block converts the stored
value and the operand to ints and adds; a `KeyError` (absent key),
`TypeError` or `ValueError` (non-integer value or operand) is caught and the
key is set to the Python int `1`; the stored value is returned. -/
def handle_incrby (s : SState) (now : Int) (db : Int) (key : Key) (byArg : PyArg) :
    SState × Reply :=
  let s := check_ttl s now db key
  let t := getTable s (DbIdx.num db)
  match tlookup t key with
  | none => (setTable s (DbIdx.num db) (tinsert t key (Value.int 1)), Reply.int 1)
  | some v =>
    match valToInt v with
    | none => (setTable s (DbIdx.num db) (tinsert t key (Value.int 1)), Reply.int 1)
    | some n =>
      match argToInt byArg with
      | none => (setTable s (DbIdx.num db) (tinsert t key (Value.int 1)), Reply.int 1)
      | some b => (setTable s (DbIdx.num db) (tinsert t key (Value.int (n + b))), Reply.int (n + b))

/-- `handle_incr`: `check_ttl`, then `handle_incrby(client, key, 1)` with the
Python int `1`. -/
def handle_incr (s : SState) (now : Int) (db : Int) (key : Key) : SState × Reply :=
  let s := check_ttl s now db key
  handle_incrby s now db key (PyArg.pint 1)

/-- `handle_decrby`: `check_ttl` runs first; then
`self.handle_incrby(self, client, key, -by)` raises `TypeError` — `-by`
negates the str the dispatcher passed, and `self` is an extra positional
argument even for a numeric operand — so after the lazy-expiry check no
state changes and the exception escapes. -/
def handle_decrby (s : SState) (now : Int) (db : Int) (key : Key) (_byArg : PyArg) :
    SState × PyResult :=
  (check_ttl s now db key, PyResult.exn PyErr.typeError)

/-- `handle_decr`: `check_ttl` runs first; then
`self.handle_decrby(self, client, key, 1)` passes `self` as an extra
positional argument, raising `TypeError` before `handle_decrby`'s body. -/
def handle_decr (s : SState) (now : Int) (db : Int) (key : Key) : SState × PyResult :=
  (check_ttl s now db key, PyResult.exn PyErr.typeError)

/-- `handle_lpush`: `check_ttl`; create an empty deque for an absent key;
`BAD_VALUE` if the value is not a deque; else `appendleft` and `True`. -/
def handle_lpush (s : SState) (now : Int) (db : Int) (key : Key) (data : String) :
    SState × Reply :=
  let s := check_ttl s now db key
  let t := getTable s (DbIdx.num db)
  match tlookup t key with
  | none => (setTable s (DbIdx.num db) (tinsert t key (Value.list [data])), Reply.ok)
  | some (Value.list l) =>
      (setTable s (DbIdx.num db) (tinsert t key (Value.list (data :: l))), Reply.ok)
  | some _ => (s, Reply.err ("Operation against a key holding the wrong kind of value"))

/-- `handle_rpush`: `check_ttl`; create an empty deque for an absent key;
`BAD_VALUE` if the value is not a deque; else `append` and `True`. -/
def handle_rpush (s : SState) (now : Int) (db : Int) (key : Key) (data : String) :
    SState × Reply :=
  let s := check_ttl s now db key
  let t := getTable s (DbIdx.num db)
  match tlookup t key with
  | none => (setTable s (DbIdx.num db) (tinsert t key (Value.list [data])), Reply.ok)
  | some (Value.list l) =>
      (setTable s (DbIdx.num db) (tinsert t key (Value.list (l ++ [data]))), Reply.ok)
  | some _ => (s, Reply.err ("Operation against a key holding the wrong kind of value"))

/-- `handle_lpop`: `check_ttl`; nil bulk when absent or empty; `BAD_VALUE`
when not a deque; else `popleft`. -/
def handle_lpop (s : SState) (now : Int) (db : Int) (key : Key) : SState × Reply :=
  let s := check_ttl s now db key
  let t := getTable s (DbIdx.num db)
  match tlookup t key with
  | none => (s, Reply.nil)
  | some (Value.list []) => (s, Reply.nil)
  | some (Value.list (h :: rest)) =>
      (setTable s (DbIdx.num db) (tinsert t key (Value.list rest)), Reply.bulk h)
  | some _ => (s, Reply.err ("Operation against a key holding the wrong kind of value"))

/-- `handle_rpop`: `check_ttl`; nil bulk when absent or empty; `BAD_VALUE`
when not a deque; else pop from the right. -/
def handle_rpop (s : SState) (now : Int) (db : Int) (key : Key) : SState × Reply :=
  let s := check_ttl s now db key
  let t := getTable s (DbIdx.num db)
  match tlookup t key with
  | none => (s, Reply.nil)
  | some (Value.list l) =>
    match l.getLast? with
    | none => (s, Reply.nil)
    | some x => (setTable s (DbIdx.num db) (tinsert t key (Value.list l.dropLast)), Reply.bulk x)
  | some _ => (s, Reply.err ("Operation against a key holding the wrong kind of value"))

/-- Is the first sequence a prefix of the second? (character-exact). -/
def listPrefixB : List Char → List Char → Bool
  | [], _ => true
  | _ :: _, [] => false
  | a :: xs, b :: ys => (a == b) && listPrefixB xs ys

/-- Python substring containment `n in h` for strings. -/
def substrB (n : List Char) : List Char → Bool
  | [] => n.isEmpty
  | c :: rest => listPrefixB n (c :: rest) || substrB n rest

/-- `handle_hget`: `check_ttl`, then
`client.table[key][field] if field in client.table[key] else None` — the
membership test on an absent key raises `KeyError`; on a string it is a
substring test and on a deque an element test, after which the subscript
raises `TypeError`; `in` on an int raises `TypeError` outright; only a dict
behaves (Python `None` for a missing field). -/
def handle_hget (s : SState) (now : Int) (db : Int) (key field : Key) :
    SState × PyResult :=
  let s := check_ttl s now db key
  match tlookup (getTable s (DbIdx.num db)) key with
  | none => (s, PyResult.exn PyErr.keyError)
  | some (Value.hash h) =>
    match tlookup h field with
    | some x => (s, PyResult.ret (Reply.bulk x))
    | none => (s, PyResult.ret Reply.other)
  | some (Value.str str) =>
      if substrB field.data str.data then (s, PyResult.exn PyErr.typeError)
      else (s, PyResult.ret Reply.other)
  | some (Value.list l) =>
      if l.contains field then (s, PyResult.exn PyErr.typeError)
      else (s, PyResult.ret Reply.other)
  | some (Value.int _) => (s, PyResult.exn PyErr.typeError)

/-- `dict.pop` applied in sequence to each field (the `map` in
`handle_hdel`); a missing field raises `KeyError` mid-way. -/
def dictPopAll (h : List (String × String)) : List String →
    List (String × String) × Option PyErr
  | [] => (h, none)
  | f :: fs =>
    match tlookup h f with
    | none => (h, some PyErr.keyError)
    | some _ => dictPopAll (tdelete h f) fs

/-- `handle_hdel`: `check_ttl`, then `len(map(client.table[key].pop, keys))`
— the table lookup raises `KeyError` for an absent key; `.pop` on a string
or an int raises `AttributeError`; `deque.pop` takes no argument, raising
`TypeError`; on a dict each field is popped in turn. -/
def handle_hdel (s : SState) (now : Int) (db : Int) (key : Key) (fields : List String) :
    SState × PyResult :=
  let s := check_ttl s now db key
  let t := getTable s (DbIdx.num db)
  match tlookup t key with
  | none => (s, PyResult.exn PyErr.keyError)
  | some (Value.hash h) =>
    match dictPopAll h fields with
    | (h2, none) =>
        (setTable s (DbIdx.num db) (tinsert t key (Value.hash h2)),
         PyResult.ret (Reply.int fields.length))
    | (h2, some e) =>
        (setTable s (DbIdx.num db) (tinsert t key (Value.hash h2)), PyResult.exn e)
  | some (Value.list _) => (s, PyResult.exn PyErr.typeError)
  | some _ => (s, PyResult.exn PyErr.attributeError)

/-- `handle_hexists`: `check_ttl`, then `field in client.table[key]` — a
`KeyError` for an absent key, `TypeError` on an int, and otherwise a Python
bool (substring test on a string, element test on a deque, field test on a
dict), which `dump` renders as `+OK` or silence. -/
def handle_hexists (s : SState) (now : Int) (db : Int) (key field : Key) :
    SState × PyResult :=
  let s := check_ttl s now db key
  match tlookup (getTable s (DbIdx.num db)) key with
  | none => (s, PyResult.exn PyErr.keyError)
  | some (Value.hash h) =>
      (s, PyResult.ret (if (tlookup h field).isSome then Reply.ok else Reply.silent))
  | some (Value.str str) =>
      (s, PyResult.ret (if substrB field.data str.data then Reply.ok else Reply.silent))
  | some (Value.list l) =>
      (s, PyResult.ret (if l.contains field then Reply.ok else Reply.silent))
  | some (Value.int _) => (s, PyResult.exn PyErr.typeError)

/-- `handle_hlen`: `check_ttl`, then `len(client.table[key])` — `KeyError`
for an absent key, `TypeError` on an int, a length otherwise. -/
def handle_hlen (s : SState) (now : Int) (db : Int) (key : Key) : SState × PyResult :=
  let s := check_ttl s now db key
  match tlookup (getTable s (DbIdx.num db)) key with
  | none => (s, PyResult.exn PyErr.keyError)
  | some (Value.hash h) => (s, PyResult.ret (Reply.int h.length))
  | some (Value.str str) => (s, PyResult.ret (Reply.int str.length))
  | some (Value.list l) => (s, PyResult.ret (Reply.int l.length))
  | some (Value.int _) => (s, PyResult.exn PyErr.typeError)

/-- `handle_hmget`: `check_ttl`, then
`[client.table[key].get(f) for f in fields]` — `KeyError` for an absent key;
`.get` exists only on a dict (`AttributeError` otherwise); `dump` renders
each item through `str`, so a missing field shows as the text `None`. -/
def handle_hmget (s : SState) (now : Int) (db : Int) (key : Key) (fields : List String) :
    SState × PyResult :=
  let s := check_ttl s now db key
  match tlookup (getTable s (DbIdx.num db)) key with
  | none => (s, PyResult.exn PyErr.keyError)
  | some (Value.hash h) =>
      (s, PyResult.ret (Reply.array (fields.map fun f =>
        match tlookup h f with
        | some x => x
        | none => "None")))
  | some _ => (s, PyResult.exn PyErr.attributeError)

/-- `handle_hgetall`: `check_ttl`, then return `client.table[key]` —
`KeyError` for an absent key; a returned dict (or deque) is RESP-unencodable
and `dump` prints its placeholder text, a string or int encodes normally. -/
def handle_hgetall (s : SState) (now : Int) (db : Int) (key : Key) : SState × PyResult :=
  let s := check_ttl s now db key
  match tlookup (getTable s (DbIdx.num db)) key with
  | none => (s, PyResult.exn PyErr.keyError)
  | some (Value.hash _) => (s, PyResult.ret Reply.other)
  | some (Value.str str) => (s, PyResult.ret (Reply.bulk str))
  | some (Value.list _) => (s, PyResult.ret Reply.other)
  | some (Value.int n) => (s, PyResult.ret (Reply.int n))

/-- `handle_hset`: `check_ttl`; an absent key gets a fresh dict; on a dict,
store the field (reply `1` when the field was new, `0` otherwise — the source
stores in both branches); on any other value the field-membership test or the
subscript assignment raises `TypeError`. -/
def handle_hset (s : SState) (now : Int) (db : Int) (key field value : String) :
    SState × PyResult :=
  let s := check_ttl s now db key
  let t := getTable s (DbIdx.num db)
  match tlookup t key with
  | none =>
      (setTable s (DbIdx.num db) (tinsert t key (Value.hash [(field, value)])),
       PyResult.ret (Reply.int 1))
  | some (Value.hash h) =>
    match tlookup h field with
    | none =>
        (setTable s (DbIdx.num db) (tinsert t key (Value.hash (tinsert h field value))),
         PyResult.ret (Reply.int 1))
    | some _ =>
        (setTable s (DbIdx.num db) (tinsert t key (Value.hash (tinsert h field value))),
         PyResult.ret (Reply.int 0))
  | some _ => (s, PyResult.exn PyErr.typeError)

/-- The replies `dump` encodes onto the wire for a dispatched handler
outcome: an uncaught exception reaches `dump` never, so nothing is written. -/
def emitted : PyResult → List Reply
  | PyResult.ret r => [r]
  | PyResult.exn _ => []

/-- The dispatch loops (`run`, `gevent_handler`, `ThreadedRedisServer.thread`)
catch any exception escaping `handle` and quit the connection: the connection
survives a command exactly when its handler returned. -/
def connSurvives : PyResult → Bool
  | PyResult.ret _ => true
  | PyResult.exn _ => false

/-- The RESP frame `handle_publish` writes to a subscriber: the three bulk
strings of `*3 message ch msg`. -/
def messageEnvelope (ch msg : String) : List String := ["message", ch, msg]

/-- The characters Python's `re` treats specially in a pattern (the braces
are written via their code points). -/
def reMetaChars : List Char :=
  ['.', '^', '$', '*', '+', '?', '(', ')', '[', ']', '|', '\\',
   Char.ofNat 123, Char.ofNat 125]

/-- A pattern string that is plain text to the regex engine: no
metacharacter occurs in it. -/
def regexFreeB (l : List Char) : Bool :=
  l.all (fun c => !(reMetaChars.contains c))

/-- `re.match(p, channel)` on the fragment modelled here: for a pattern free
of regex metacharacters the engine matches exactly when `p` is a prefix of
`channel`; a stored name containing a metacharacter is mapped to `none` and
this development states nothing about it (the real engine may then fail to
match the literally equal string — `re.match` of the pattern `a+b` against
the text `a+b` is `None` — or raise `re.error` on an invalid pattern). -/
def reMatchLiteral (p ch : String) : Option Bool :=
  if regexFreeB p.data then some (listPrefixB p.data ch.data) else none

/-- The loop body of `handle_publish` over `self.channels.keys()`: for each
stored channel name `p` with `re.match(p, channel)`, it iterates
`self.channels[channel]` (a `KeyError` when `channel` itself has no entry)
and writes the `message` envelope to each of those connections.  The result
is `none` as soon as a stored name falls outside the regex fragment
modelled by `reMatchLiteral`. -/
def publishGo (channels : List (String × List Nat)) (ch msg : String) :
    List String → Option (List (Nat × List String) × PyResult)
  | [] => some ([], PyResult.ret Reply.ok)
  | p :: ps =>
    match reMatchLiteral p ch with
    | none => none
    | some false => publishGo channels ch msg ps
    | some true =>
      match tlookup channels ch with
      | none => some ([], PyResult.exn PyErr.keyError)
      | some subs =>
        match publishGo channels ch msg ps with
        | none => none
        | some rest =>
            some ((subs.map fun c => (c, messageEnvelope ch msg)) ++ rest.1, rest.2)

/-- `handle_publish`: run the loop over the stored channel names and return
`True` (so `dump` answers `+OK`); the first component collects the frames
written, tagged by recipient connection. -/
def handle_publish (channels : List (String × List Nat)) (ch msg : String) :
    Option (List (Nat × List String) × PyResult) :=
  publishGo channels ch msg (channels.map Prod.fst)

/-- An atom of the regex `handle_keys` builds: a literal character, or the
`.*` that each `*` of the pattern is rewritten to. -/
inductive RTok : Type
  | lit (c : Char)
  | dotstar
deriving DecidableEq

/-- Matching one literal atom, then continuing with `f`. -/
def matchLit (c : Char) (f : List Char → Bool) : List Char → Bool
  | [] => false
  | d :: s => (c == d) && f s

/-- Matching `.*` then `f`: try `f` on every suffix — this is the SPEC
glob's `*`, free to cross any character. -/
def starLoop (f : List Char → Bool) : List Char → Bool
  | [] => f []
  | d :: s => f (d :: s) || starLoop f s

/-- Python's `$` (default flags): it matches at the very end of the subject,
or just before a newline that ends the subject. -/
def dollarEnd : List Char → Bool
  | [] => true
  | c :: rest => (c == '\n') && rest.isEmpty

/-- Python's `.*` then `f`: `.` does not match a newline, so the loop may
only step over non-newline characters. -/
def dotStarLoop (f : List Char → Bool) : List Char → Bool
  | [] => f []
  | d :: s => f (d :: s) || ((d != '\n') && dotStarLoop f s)

/-- Acceptance of the regex `'^' + ... + '$'` under `r.match`: `re.match`
anchors at the start, and the trailing `$` requires the atoms to consume the
whole subject up to `dollarEnd` — so a subject ending in one extra newline
is also accepted. -/
def reAccept : List RTok → List Char → Bool
  | [], s => dollarEnd s
  | RTok.lit c :: ts, s => matchLit c (reAccept ts) s
  | RTok.dotstar :: ts, s => dotStarLoop (reAccept ts) s

/-- `pattern.replace('*', '.*')` read as an atom list: each `*` becomes `.*`,
every other character a literal atom (faithful for the patterns the claim
quantifies over, whose non-`*` characters carry no regex meaning). -/
def compilePattern (p : List Char) : List RTok :=
  p.map fun c => if c = '*' then RTok.dotstar else RTok.lit c

/-- `handle_keys` (src/miniredis/server.py): filter the selected table's
keys through the regex `re.compile('^' + pattern.replace('*', '.*') + '$')`
tested with `r.match`. -/
def handle_keys (s : SState) (db : Int) (pattern : String) : List Key :=
  ((getTable s (DbIdx.num db)).map Prod.fst).filter
    (fun k => reAccept (compilePattern pattern.data) k.data)

/-- `r.search`-style acceptance at a fixed start position with NO trailing
anchor: the atoms consume a prefix of the subject, the rest is free. -/
def reAcceptFrom : List RTok → List Char → Bool
  | [], _ => true
  | RTok.lit c :: ts, s => matchLit c (reAcceptFrom ts) s
  | RTok.dotstar :: ts, s => dotStarLoop (reAcceptFrom ts) s

/-- `r.search` with no anchors at all: try every start position. -/
def reSearchB (ts : List RTok) : List Char → Bool
  | [] => reAcceptFrom ts []
  | d :: s => reAcceptFrom ts (d :: s) || reSearchB ts s

/-- `handle_keys` of the second variant (src/redis/server.py, lines
257-260): the regex is `re.compile(pattern.replace('*', '.*'))` — no `^`,
no `$` — and the filter tests `r.search(k)`, so a key merely CONTAINING a
match is returned. -/
def redis_handle_keys (s : SState) (db : Int) (pattern : String) : List Key :=
  ((getTable s (DbIdx.num db)).map Prod.fst).filter
    (fun k => reSearchB (compilePattern pattern.data) k.data)

/-- Modelled from the spec: "glob-style `*` wildcard … anchor both ends" — a
`*` matches any (possibly empty) character sequence, any other pattern
character matches exactly itself, and the whole key must be consumed. -/
def specGlobMatch : List Char → List Char → Bool
  | [], s => s.isEmpty
  | c :: p, s =>
    if c = '*' then starLoop (specGlobMatch p) s else matchLit c (specGlobMatch p) s

theorem getTable_set_timeouts (s : SState) (ts : List ((Int × Key) × TVal)) (i : DbIdx) :
    getTable { s with timeouts := ts } i = getTable s i := rfl

theorem handle_del_timeouts (s : SState) (db : Int) (k : Key) :
    (handle_del s db k).1.timeouts = tdelete s.timeouts (db, k) := by
  unfold handle_del handle_persist
  cases h : tlookup (getTable { s with timeouts := tdelete s.timeouts (db, k) } (DbIdx.num db)) k <;>
    simp [h, setTable]

theorem handle_del_lookup (s : SState) (db : Int) (k : Key) :
    tlookup (getTable (handle_del s db k).1 (DbIdx.num db)) k = none := by
  unfold handle_del handle_persist
  cases h : tlookup (getTable { s with timeouts := tdelete s.timeouts (db, k) } (DbIdx.num db)) k with
  | none => simp [h]
  | some v => simp [h, getTable_setTable_self, tlookup_tdelete_self]

theorem tdelete_eq_of_lookup_none {α β : Type} [DecidableEq α] (l : List (α × β)) (k : α)
    (h : tlookup l k = none) : tdelete l k = l := by
  induction l with
  | nil => rfl
  | cons p t ih =>
    obtain ⟨a, b⟩ := p
    by_cases ha : a = k
    · simp [tlookup, ha] at h
    · simp only [tlookup, if_neg ha] at h
      simp [tdelete, ha, ih h]

theorem handle_del_absent (s : SState) (db : Int) (k : Key)
    (h : tlookup (getTable s (DbIdx.num db)) k = none)
    (h2 : tlookup s.timeouts (db, k) = none) :
    handle_del s db k = (s, Reply.int 0) := by
  obtain ⟨tb, ts⟩ := s
  unfold handle_del handle_persist
  rw [tdelete_eq_of_lookup_none ts (db, k) h2]
  simp [h]

theorem handle_del_tables_of_absent (s : SState) (db : Int) (k : Key)
    (h : tlookup (getTable s (DbIdx.num db)) k = none) :
    (handle_del s db k).1.tables = s.tables := by
  unfold handle_del handle_persist
  simp [getTable_set_timeouts, h]

/-- C9: a second consecutive `DEL k` returns `0` and changes nothing, and a
second consecutive `PERSIST k` is a no-op (same state, same reply, as after
the first). -/
theorem C9_del_persist_idempotent (s : SState) (db : Int) (k : Key) :
    handle_del (handle_del s db k).1 db k = ((handle_del s db k).1, Reply.int 0) ∧
    handle_persist (handle_persist s db k).1 db k = handle_persist s db k := by
  constructor
  · have h2 : tlookup (handle_del s db k).1.timeouts (db, k) = none := by
      rw [handle_del_timeouts s db k]; exact tlookup_tdelete_self _ _
    exact handle_del_absent _ db k (handle_del_lookup s db k) h2
  · obtain ⟨tb, ts⟩ := s
    show (SState.mk tb (tdelete (tdelete ts (db, k)) (db, k)), Reply.other)
        = (SState.mk tb (tdelete ts (db, k)), Reply.other)
    rw [tdelete_idem]

theorem getTable_check_ttl_of_absent (s : SState) (now db : Int) (k : Key)
    (h : tlookup (getTable s (DbIdx.num db)) k = none) :
    getTable (check_ttl s now db k) (DbIdx.num db) = getTable s (DbIdx.num db) := by
  unfold check_ttl
  cases hx : tlookup s.timeouts (db, k) with
  | none => rfl
  | some d =>
    cases hle : pyLeNow d now with
    | true =>
      simp only [hle, if_true]
      unfold handle_del handle_persist
      simp [getTable_set_timeouts, h]
    | false => simp [hle]

/-- C10: every one of `HGET`, `HDEL`, `HEXISTS`, `HLEN`, `HMGET`, `HGETALL`
applied to an absent key raises an uncaught `KeyError`: no reply is written,
and under the dispatch loops the connection does not survive. -/
theorem C10_hash_commands_keyerror (s : SState) (now db : Int) (k f : Key)
    (fields : List String)
    (h : tlookup (getTable s (DbIdx.num db)) k = none) :
    (handle_hget s now db k f).2 = PyResult.exn PyErr.keyError ∧
    (handle_hdel s now db k fields).2 = PyResult.exn PyErr.keyError ∧
    (handle_hexists s now db k f).2 = PyResult.exn PyErr.keyError ∧
    (handle_hlen s now db k).2 = PyResult.exn PyErr.keyError ∧
    (handle_hmget s now db k fields).2 = PyResult.exn PyErr.keyError ∧
    (handle_hgetall s now db k).2 = PyResult.exn PyErr.keyError ∧
    emitted (handle_hget s now db k f).2 = [] ∧
    emitted (handle_hdel s now db k fields).2 = [] ∧
    emitted (handle_hexists s now db k f).2 = [] ∧
    emitted (handle_hlen s now db k).2 = [] ∧
    emitted (handle_hmget s now db k fields).2 = [] ∧
    emitted (handle_hgetall s now db k).2 = [] ∧
    connSurvives (handle_hget s now db k f).2 = false ∧
    connSurvives (handle_hdel s now db k fields).2 = false ∧
    connSurvives (handle_hexists s now db k f).2 = false ∧
    connSurvives (handle_hlen s now db k).2 = false ∧
    connSurvives (handle_hmget s now db k fields).2 = false ∧
    connSurvives (handle_hgetall s now db k).2 = false := by
  have hck : tlookup (getTable (check_ttl s now db k) (DbIdx.num db)) k = none := by
    rw [getTable_check_ttl_of_absent s now db k h]; exact h
  refine ⟨?_, ?_, ?_, ?_, ?_, ?_, ?_, ?_, ?_, ?_, ?_, ?_, ?_, ?_, ?_, ?_, ?_, ?_⟩ <;>
    simp [handle_hget, handle_hdel, handle_hexists, handle_hlen, handle_hmget,
      handle_hgetall, hck, emitted, connSurvives]

/-- C10 witness: on an empty database, `HGET k f` raises `KeyError`. -/
theorem C10_hash_commands_keyerror_witness :
    (handle_hget (⟨[(DbIdx.num 0, [])], []⟩ : SState) 0 0 ("k") ("f")).2
      = PyResult.exn PyErr.keyError :=
  (C10_hash_commands_keyerror (⟨[(DbIdx.num 0, [])], []⟩ : SState) 0 0 ("k") ("f")
    [("f")] rfl).1

set_option maxRecDepth 100000 in
/-- C1: the absent (`-2`) and non-volatile (`-1`) answers of `TTL` are as
claimed, but for a volatile key the code returns `int(self.timeouts[k])` —
the stored ABSOLUTE deadline, not the remaining time.  On the wire the only
expiration writer that works is `EXPIREAT` (the dispatcher passes a str, on
which `EXPIRE`'s `time.time() + ttl` raises `TypeError` for a present key,
writing nothing): after `SET k v` and `EXPIREAT k 7`, `TTL k` answers `7`
whatever the current time is — `handle_ttl` consults no clock at all — where
the remaining time at, say, time `5` is `2`; and `PTTL k` answers
`int` of the deadline STRING repeated 1000 times (`self.timeouts[k]*1000`
is string repetition), a 1000-digit number, not the remaining milliseconds.
The repository's own test (`tests/test_keys.py`, `test_expireat`) expects
`r.ttl(..) == 2` right after `r.expireat(.., now + 2)`. -/
theorem C1_ttl_reports_absolute_deadline :
    (handle_expireat (⟨[(DbIdx.num 0, [(("k"), Value.str ("v"))])], []⟩ : SState)
        0 ("k") (PyArg.pstr ("7"))).2 = PyResult.ret (Reply.int 1) ∧
    handle_ttl (handle_expireat (⟨[(DbIdx.num 0, [(("k"), Value.str ("v"))])], []⟩ : SState)
        0 ("k") (PyArg.pstr ("7"))).1 0 ("k") = PyResult.ret (Reply.int 7) ∧
    (7 : Int) ≠ 2 ∧
    handle_pttl (handle_expireat (⟨[(DbIdx.num 0, [(("k"), Value.str ("v"))])], []⟩ : SState)
        0 ("k") (PyArg.pstr ("7"))).1 0 ("k")
      = PyResult.ret (Reply.int (((digitsVal (List.replicate 1000 ('7'))).getD 0 : Nat) : Int)) ∧
    handle_pttl (handle_expireat (⟨[(DbIdx.num 0, [(("k"), Value.str ("v"))])], []⟩ : SState)
        0 ("k") (PyArg.pstr ("7"))).1 0 ("k") ≠ PyResult.ret (Reply.int 2000) ∧
    handle_pttl (handle_expireat (⟨[(DbIdx.num 0, [(("k"), Value.str ("v"))])], []⟩ : SState)
        0 ("k") (PyArg.pstr ("7"))).1 0 ("k") ≠ PyResult.ret (Reply.int 7000) ∧
    handle_expire (⟨[(DbIdx.num 0, [(("k"), Value.str ("v"))])], []⟩ : SState)
        5 0 ("k") (PyArg.pstr ("2"))
      = ((⟨[(DbIdx.num 0, [(("k"), Value.str ("v"))])], []⟩ : SState),
         PyResult.exn PyErr.typeError) ∧
    handle_ttl (handle_expireat (⟨[(DbIdx.num 0, [(("k"), Value.str ("v"))])], []⟩ : SState)
        0 ("k") (PyArg.pstr ("7"))).1 0 ("absent") = PyResult.ret (Reply.int (-2)) ∧
    handle_ttl (⟨[(DbIdx.num 0, [(("j"), Value.str ("v"))])], []⟩ : SState) 0 ("j")
      = PyResult.ret (Reply.int (-1)) :=
  ⟨rfl, rfl, by decide, by decide, by decide, by decide, rfl, rfl, rfl⟩

/-- C2: `RENAME a b` moves the value, but the TTL-transfer block writes the
timeout back under the OLD key and then deletes that very entry, so the
expiration entry is destroyed rather than moved: starting from `a ↦ "1"`
with the stored deadline `"100"` (the string `EXPIREAT a 100` stores), after
`RENAME a b` the expiration table is empty, `TTL b` is `-1` (not `100`) and
`EXISTS a` would be `0` (`TTL a = -2`).  This contradicts the code's own
`# transfer TTL` comment. -/
theorem C2_rename_drops_expiration :
    handle_rename (⟨[(DbIdx.num 0, [(("a"), Value.str ("1"))])],
        [((0, ("a")), TVal.tstr ("100"))]⟩ : SState) 0 ("a") ("b")
      = (⟨[(DbIdx.num 0, [(("b"), Value.str ("1"))])], []⟩, PyResult.ret Reply.ok) ∧
    handle_ttl (⟨[(DbIdx.num 0, [(("b"), Value.str ("1"))])], []⟩ : SState) 0 ("b")
      = PyResult.ret (Reply.int (-1)) ∧
    handle_ttl (⟨[(DbIdx.num 0, [(("b"), Value.str ("1"))])], []⟩ : SState) 0 ("a")
      = PyResult.ret (Reply.int (-2)) :=
  ⟨rfl, rfl, rfl⟩

/-- C4: with `n ↦ "foo"` (not an integer string), `INCRBY n 5` stores the
Python int `1` and replies `:1` instead of an error leaving the value
unchanged; with `n` absent, `INCRBY n 5` stores and replies `1`, not the
operand `5`; and `DECRBY` (like `DECR`) passes `self` twice in its recursive
call, raising an uncaught `TypeError` instead of acting as a sign-flipped
counter. -/
theorem C4_incr_family_counter :
    handle_incrby (⟨[(DbIdx.num 0, [(("n"), Value.str ("foo"))])], []⟩ : SState)
        0 0 ("n") (PyArg.pstr ("5"))
      = (⟨[(DbIdx.num 0, [(("n"), Value.int 1)])], []⟩, Reply.int 1) ∧
    handle_incrby (⟨[(DbIdx.num 0, [])], []⟩ : SState) 0 0 ("n") (PyArg.pstr ("5"))
      = (⟨[(DbIdx.num 0, [(("n"), Value.int 1)])], []⟩, Reply.int 1) ∧
    Reply.int 1 ≠ Reply.int 5 ∧
    handle_decrby (⟨[(DbIdx.num 0, [])], []⟩ : SState) 0 0 ("n") (PyArg.pstr ("3"))
      = (⟨[(DbIdx.num 0, [])], []⟩, PyResult.exn PyErr.typeError) ∧
    connSurvives (handle_decrby (⟨[(DbIdx.num 0, [])], []⟩ : SState) 0 0 ("n")
        (PyArg.pstr ("3"))).2 = false :=
  ⟨rfl, rfl, by decide, rfl, rfl⟩

/-- C3 counterexample: with `k ↦ "v"` in database 0 carrying the stored
deadline `"100"` and the destination free, `MOVE k 1` succeeds (replies
`:1`) yet the expiration table afterwards is empty — the entry was deleted,
not transferred with the key as the claim states. -/
theorem C3_move_discards_ttl :
    (handle_move (⟨[(DbIdx.num 0, [(("k"), Value.str ("v"))])],
        [((0, ("k")), TVal.tstr ("100"))]⟩ : SState) 0 ("k") ("1")).2 = Reply.int 1 ∧
    (handle_move (⟨[(DbIdx.num 0, [(("k"), Value.str ("v"))])],
        [((0, ("k")), TVal.tstr ("100"))]⟩ : SState) 0 ("k") ("1")).1.timeouts = [] :=
  ⟨rfl, rfl⟩

/-- C5 counterexample: `SET k v`; `EXPIREAT k 5` (the argument arrives as
the str `"5"` and is stored, reply `:1`); `FLUSHDB` — afterwards the
expiration table still holds the entry for `(0, k)` while `k` is absent from
database 0, refuting the claimed invariant (FLUSHDB clears the table but
never touches `self.timeouts`). -/
theorem C5_flushdb_leaves_stale_entry :
    (handle_expireat (handle_set (⟨[(DbIdx.num 0, [])], []⟩ : SState) 0 ("k") ("v")).1
        0 ("k") (PyArg.pstr ("5"))).2 = PyResult.ret (Reply.int 1) ∧
    tlookup ((handle_flushdb (handle_expireat
        (handle_set (⟨[(DbIdx.num 0, [])], []⟩ : SState) 0 ("k") ("v")).1
        0 ("k") (PyArg.pstr ("5"))).1 0).1).timeouts (0, ("k"))
      = some (TVal.tstr ("5")) ∧
    tlookup (getTable ((handle_flushdb (handle_expireat
        (handle_set (⟨[(DbIdx.num 0, [])], []⟩ : SState) 0 ("k") ("v")).1
        0 ("k") (PyArg.pstr ("5"))).1 0).1) (DbIdx.num 0)) ("k") = none :=
  ⟨rfl, rfl, rfl⟩

/-- C6 counterexample: with `k ↦ "1"` carrying the stored deadline `"100"`
(which Python 2 never orders below the clock, so it is unexpired at any
time), `INCR k` succeeds (replies `:2`) and the expiration
entry for `k` is still present afterwards — `check_ttl` removes only expired
entries and `handle_incrby` never persists. -/
theorem C6_incr_keeps_entry :
    tlookup (handle_incr (⟨[(DbIdx.num 0, [(("k"), Value.str ("1"))])],
        [((0, ("k")), TVal.tstr ("100"))]⟩ : SState) 0 0 ("k")).1.timeouts (0, ("k"))
      = some (TVal.tstr ("100")) ∧
    (handle_incr (⟨[(DbIdx.num 0, [(("k"), Value.str ("1"))])],
        [((0, ("k")), TVal.tstr ("100"))]⟩ : SState) 0 0 ("k")).2 = Reply.int 2 :=
  ⟨rfl, rfl⟩

/-- C7 counterexample: with one connection subscribed to `news`,
`PUBLISH news hi` does deliver the `message` envelope to it, but the reply
to the publisher is `True` — encoded `+OK` — not the integer recipient
count `:1` the claim states. -/
theorem C7_publish_replies_ok_not_count :
    handle_publish [(("news"), [0])] ("news") ("hi")
      = some ([(0, [("message"), ("news"), ("hi")])], PyResult.ret Reply.ok) ∧
    PyResult.ret Reply.ok ≠ PyResult.ret (Reply.int 1) :=
  ⟨rfl, by decide⟩

theorem dollarEnd_of_no_newline (s : List Char) (hs : ('\n') ∉ s) :
    dollarEnd s = s.isEmpty := by
  cases s with
  | nil => rfl
  | cons c rest =>
    have hc : c ≠ '\n' := by
      intro h
      exact hs (by rw [h]; exact List.mem_cons_self _ _)
    simp [dollarEnd, hc]

theorem dotStarLoop_eq_starLoop (f g : List Char → Bool)
    (hfg : ∀ t, ('\n') ∉ t → f t = g t) :
    ∀ s, ('\n') ∉ s → dotStarLoop f s = starLoop g s := by
  intro s
  induction s with
  | nil =>
    intro _
    show f [] = g []
    exact hfg [] (by simp)
  | cons d rest ih =>
    intro hs
    have hd : d ≠ '\n' := by
      intro h
      exact hs (by rw [h]; exact List.mem_cons_self _ _)
    have hrest : ('\n') ∉ rest := fun h => hs (List.mem_cons_of_mem d h)
    show (f (d :: rest) || ((d != '\n') && dotStarLoop f rest))
        = (g (d :: rest) || starLoop g rest)
    rw [hfg _ hs, ih hrest]
    have hbne : (d != '\n') = true := by simp [hd]
    rw [hbne, Bool.true_and]

theorem reAccept_compilePattern (p : List Char) :
    ∀ s, ('\n') ∉ s → reAccept (compilePattern p) s = specGlobMatch p s := by
  induction p with
  | nil =>
    intro s hs
    show dollarEnd s = s.isEmpty
    exact dollarEnd_of_no_newline s hs
  | cons c p ih =>
    intro s hs
    have hcomp : compilePattern (c :: p)
        = (if c = '*' then RTok.dotstar else RTok.lit c) :: compilePattern p := rfl
    by_cases hc : c = '*'
    · subst hc
      rw [hcomp, if_pos rfl]
      show dotStarLoop (reAccept (compilePattern p)) s = specGlobMatch ('*' :: p) s
      rw [dotStarLoop_eq_starLoop (reAccept (compilePattern p)) (specGlobMatch p) ih s hs]
      show _ = if ('*' : Char) = '*' then starLoop (specGlobMatch p) s
          else matchLit '*' (specGlobMatch p) s
      rw [if_pos rfl]
    · rw [hcomp, if_neg hc]
      show matchLit c (reAccept (compilePattern p)) s = specGlobMatch (c :: p) s
      have hrhs : specGlobMatch (c :: p) s = matchLit c (specGlobMatch p) s := by
        show (if c = '*' then starLoop (specGlobMatch p) s
            else matchLit c (specGlobMatch p) s) = _
        rw [if_neg hc]
      rw [hrhs]
      cases s with
      | nil => rfl
      | cons d s2 =>
        have hs2 : ('\n') ∉ s2 := fun h => hs (List.mem_cons_of_mem d h)
        simp [matchLit, ih s2 hs2]

/-- C8 counterexample: the claim fails on both implementations it cites.
The src/redis variant compiles the pattern with no anchors and filters with
`r.search`, so for the pattern `foo` the key `xfoo` — an extra leading
character — is returned.  And even the miniredis variant returns the key
`abc` followed by a newline for the pattern `abc`: Python's `$` also
matches just before a trailing newline, so a key with one extra trailing
character is returned although the anchored glob rejects it. -/
theorem C8_keys_unanchored_counterexample :
    redis_handle_keys (⟨[(DbIdx.num 0, [(("foo"), Value.str ("1")),
        (("xfoo"), Value.str ("2"))])], []⟩ : SState) 0 ("foo")
      = [("foo"), ("xfoo")] ∧
    specGlobMatch ("foo").data ("xfoo").data = false ∧
    handle_keys (⟨[(DbIdx.num 0, [(("abc\n"), Value.str ("1"))])], []⟩ : SState)
        0 ("abc") = [("abc\n")] ∧
    specGlobMatch ("abc").data ("abc\n").data = false :=
  ⟨rfl, rfl, rfl, rfl⟩

/-- C8 amended: for a pattern of literal characters and `*` wildcards, the
miniredis `handle_keys` returns exactly the anchored-glob matches among the
keys that contain no newline — such a returned key is fully consumed by the
pattern, and every matching key is returned.  (A key consisting of a match
plus one trailing newline is additionally returned, since Python's `$` also
matches before a trailing newline and the `.` of the `.*` each `*` becomes
does not cross newlines; and the src/redis variant, filtering with
`r.search` and no anchors, returns keys with extra leading or trailing
characters.) -/
theorem C8_keys_amended (s : SState) (db : Int) (pattern : String) (k : Key)
    (hk : ('\n') ∉ k.data) :
    k ∈ handle_keys s db pattern ↔
      k ∈ (getTable s (DbIdx.num db)).map Prod.fst ∧
        specGlobMatch pattern.data k.data = true := by
  unfold handle_keys
  rw [List.mem_filter, reAccept_compilePattern pattern.data k.data hk]

/-- C8 witness: on a newline-free key the amended equivalence applies —
`KEYS f*o` on the table holding `foo` returns it. -/
theorem C8_keys_amended_witness :
    ("foo") ∈ handle_keys (⟨[(DbIdx.num 0, [(("foo"), Value.str ("1"))])], []⟩ : SState)
      0 ("f*o") :=
  (C8_keys_amended (⟨[(DbIdx.num 0, [(("foo"), Value.str ("1"))])], []⟩ : SState)
      0 ("f*o") ("foo") (by decide)).mpr ⟨by decide, by decide⟩

theorem getTable_materialize (s : SState) (i j : DbIdx) :
    getTable (materialize s i) j = getTable s j := by
  unfold materialize
  by_cases h : (tlookup s.tables i).isNone
  · by_cases hij : i = j
    · subst hij
      cases hx : tlookup s.tables i with
      | none => simp [getTable, h, tlookup_tinsert_self, metaGet, hx]
      | some t => rw [hx] at h; simp at h
    · simp [getTable, h, tlookup_tinsert_ne _ _ _ _ hij]
  · simp [h]

theorem timeouts_materialize (s : SState) (i : DbIdx) :
    (materialize s i).timeouts = s.timeouts := by
  unfold materialize
  by_cases h : (tlookup s.tables i).isNone <;> simp [h]

/-- C3 amended: when `k` is present in the source database, `MOVE k db`
unconditionally deletes `k`'s expiration entry (it is persisted, never
transferred); the destination is the table stored under the RAW string
argument `db` (a different index from the integer `SELECT` uses); the move
succeeds with `:1` exactly when `k` is absent there, placing the value in
that table and removing it from the source, while if `k` is already present
there the reply is `:0` and the databases are unchanged — but the
expiration entry has still been removed. -/
theorem C3_move_amended (s : SState) (db : Int) (key : Key) (dbArg : String) (v : Value)
    (h : tlookup (getTable s (DbIdx.num db)) key = some v) :
    tlookup (handle_move s db key dbArg).1.timeouts (db, key) = none ∧
    (handle_move s db key dbArg).1.timeouts = tdelete s.timeouts (db, key) ∧
    ((tlookup (getTable s (DbIdx.sidx dbArg)) key).isSome = true →
      (handle_move s db key dbArg).2 = Reply.int 0 ∧
      ∀ i, getTable (handle_move s db key dbArg).1 i = getTable s i) ∧
    (tlookup (getTable s (DbIdx.sidx dbArg)) key = none →
      (handle_move s db key dbArg).2 = Reply.int 1 ∧
      tlookup (getTable (handle_move s db key dbArg).1 (DbIdx.sidx dbArg)) key = some v ∧
      tlookup (getTable (handle_move s db key dbArg).1 (DbIdx.num db)) key = none) := by
  have hne : DbIdx.num db ≠ DbIdx.sidx dbArg := fun hx => DbIdx.noConfusion hx
  unfold handle_move
  simp only [h, handle_persist]
  have hscrut : getTable (materialize { s with timeouts := tdelete s.timeouts (db, key) }
      (DbIdx.sidx dbArg)) (DbIdx.sidx dbArg) = getTable s (DbIdx.sidx dbArg) := by
    rw [getTable_materialize]; rfl
  rw [hscrut]
  cases hd : tlookup (getTable s (DbIdx.sidx dbArg)) key with
  | some t =>
    dsimp only
    refine ⟨?_, ?_, ?_, ?_⟩
    · simp [timeouts_materialize, tlookup_tdelete_self]
    · simp [timeouts_materialize]
    · intro _
      refine ⟨rfl, ?_⟩
      intro i
      exact getTable_materialize { s with timeouts := tdelete s.timeouts (db, key) }
        (DbIdx.sidx dbArg) i
    · intro hfalse
      simp at hfalse
  | none =>
    dsimp only
    refine ⟨?_, ?_, ?_, ?_⟩
    · simp [timeouts_setTable, timeouts_materialize, tlookup_tdelete_self]
    · simp [timeouts_setTable, timeouts_materialize]
    · intro hfalse
      simp at hfalse
    · intro _
      refine ⟨rfl, ?_, ?_⟩
      · rw [getTable_setTable_ne _ _ _ _ hne]
        rw [getTable_setTable_self]
        exact tlookup_tinsert_self _ _ _
      · rw [getTable_setTable_self]
        exact tlookup_tdelete_self _ _

/-- C3 witness: at a concrete state with `k` present and volatile, the
amended theorem applies: after `MOVE k 1` the expiration entry for `k` is
gone. -/
theorem C3_move_amended_witness :
    tlookup (handle_move (⟨[(DbIdx.num 0, [(("k"), Value.str ("v"))])],
        [((0, ("k")), TVal.tstr ("100"))]⟩ : SState)
      0 ("k") ("1")).1.timeouts (0, ("k")) = none :=
  (C3_move_amended (⟨[(DbIdx.num 0, [(("k"), Value.str ("v"))])],
      [((0, ("k")), TVal.tstr ("100"))]⟩ : SState) 0 ("k") ("1") (Value.str ("v")) rfl).1

/-- C5 amended: the per-key paths do maintain the invariant — `EXPIRE` and
`EXPIREAT` refuse to write an entry for an absent key (reply `:0`, no
change); for a present key, wire-dispatched `EXPIRE` (string `ttl`) raises
`TypeError` writing nothing, while `EXPIREAT` stores its argument touching
only the expiration table; and `DEL` removes the key's entry in the same
step — but `FLUSHDB` and `FLUSHALL` empty the databases while leaving
`self.timeouts` untouched, so the stale entry `SET k v; EXPIREAT k w;
FLUSHDB` creates survives for an absent key. -/
theorem C5_expiration_invariant_amended (s : SState) (now db : Int) (k : Key)
    (ttlArg whenArg : PyArg) :
    (tlookup (getTable s (DbIdx.num db)) k = none →
      handle_expire s now db k ttlArg = (s, PyResult.ret (Reply.int 0)) ∧
      handle_expireat s db k whenArg = (s, PyResult.ret (Reply.int 0))) ∧
    ((tlookup (getTable s (DbIdx.num db)) k).isSome = true →
      ∀ w, ttlArg = PyArg.pstr w →
        handle_expire s now db k ttlArg = (s, PyResult.exn PyErr.typeError)) ∧
    ((tlookup (getTable s (DbIdx.num db)) k).isSome = true →
      (handle_expireat s db k whenArg).1.tables = s.tables ∧
      (handle_expireat s db k whenArg).1.timeouts
        = tinsert s.timeouts (db, k) (tvalOfArg whenArg)) ∧
    tlookup (handle_del s db k).1.timeouts (db, k) = none ∧
    (handle_flushdb s db).1.timeouts = s.timeouts ∧
    getTable (handle_flushdb s db).1 (DbIdx.num db) = [] ∧
    (handle_flushall s).1.timeouts = s.timeouts := by
  refine ⟨?_, ?_, ?_, ?_, rfl, ?_, rfl⟩
  · intro h
    constructor
    · unfold handle_expire
      rw [h]
    · unfold handle_expireat
      rw [h]
  · intro h w hw
    subst hw
    unfold handle_expire
    cases hx : tlookup (getTable s (DbIdx.num db)) k with
    | none => rw [hx] at h; simp at h
    | some v => rfl
  · intro h
    unfold handle_expireat
    cases hx : tlookup (getTable s (DbIdx.num db)) k with
    | none => rw [hx] at h; simp at h
    | some v => exact ⟨rfl, rfl⟩
  · rw [handle_del_timeouts]
    exact tlookup_tdelete_self _ _
  · exact getTable_setTable_self _ _ _

/-- C5 witness: on an absent key both `EXPIRE` and `EXPIREAT` reply `:0`
and change nothing. -/
theorem C5_expiration_invariant_amended_witness :
    handle_expire (⟨[(DbIdx.num 0, [])], []⟩ : SState) 0 0 ("k") (PyArg.pstr ("2"))
        = ((⟨[(DbIdx.num 0, [])], []⟩ : SState), PyResult.ret (Reply.int 0)) ∧
    handle_expireat (⟨[(DbIdx.num 0, [])], []⟩ : SState) 0 ("k") (PyArg.pstr ("5"))
        = ((⟨[(DbIdx.num 0, [])], []⟩ : SState), PyResult.ret (Reply.int 0)) :=
  (C5_expiration_invariant_amended (⟨[(DbIdx.num 0, [])], []⟩ : SState) 0 0 ("k")
      (PyArg.pstr ("2")) (PyArg.pstr ("5"))).1 rfl

theorem check_ttl_unexpired (s : SState) (now db : Int) (k : Key) (dv : TVal)
    (hd : tlookup s.timeouts (db, k) = some dv) (hnow : pyLeNow dv now = false) :
    check_ttl s now db k = s := by
  unfold check_ttl
  simp [hd, hnow]

theorem incrby_timeouts (s : SState) (now db : Int) (k : Key) (byArg : PyArg)
    (hck : check_ttl s now db k = s) :
    (handle_incrby s now db k byArg).1.timeouts = s.timeouts := by
  unfold handle_incrby
  rw [hck]
  dsimp only
  cases hx : tlookup (getTable s (DbIdx.num db)) k with
  | none => simp [timeouts_setTable]
  | some v =>
    cases hy : valToInt v with
    | none => simp [hy, timeouts_setTable]
    | some n =>
      cases hz : argToInt byArg with
      | none => simp [hy, hz, timeouts_setTable]
      | some b => simp [hy, hz, timeouts_setTable]

/-- C6 amended: only `SET` and `GETSET` (which call `handle_persist`) clear
the key's expiration entry; `SETNX` never touches the expiration table, and
the `INCR` family, `LPUSH`, `RPUSH`, `LPOP`, `RPOP` and `HSET` merely run
`check_ttl`, which removes an entry only once its deadline compares `<=` the
clock — never for an unexpired numeric deadline, and never at all for the
string deadlines `EXPIREAT` stores — so such an entry survives all of
them. -/
theorem C6_write_commands_amended (s : SState) (now db : Int) (k : Key)
    (v f w : String) (byArg : PyArg) (dv : TVal)
    (hd : tlookup s.timeouts (db, k) = some dv) (hnow : pyLeNow dv now = false) :
    tlookup (handle_set s db k v).1.timeouts (db, k) = none ∧
    tlookup (handle_getset s db k v).1.timeouts (db, k) = none ∧
    (handle_incrby s now db k byArg).1.timeouts = s.timeouts ∧
    (handle_incr s now db k).1.timeouts = s.timeouts ∧
    (handle_setnx s db k v).1.timeouts = s.timeouts ∧
    (handle_lpush s now db k v).1.timeouts = s.timeouts ∧
    (handle_rpush s now db k v).1.timeouts = s.timeouts ∧
    (handle_lpop s now db k).1.timeouts = s.timeouts ∧
    (handle_rpop s now db k).1.timeouts = s.timeouts ∧
    (handle_hset s now db k f w).1.timeouts = s.timeouts := by
  have hck : check_ttl s now db k = s := check_ttl_unexpired s now db k dv hd hnow
  refine ⟨?_, ?_, ?_, ?_, ?_, ?_, ?_, ?_, ?_, ?_⟩
  · simp [handle_set, handle_persist, timeouts_setTable, tlookup_tdelete_self]
  · unfold handle_getset handle_persist
    dsimp only
    cases hx : tlookup (getTable { s with timeouts := tdelete s.timeouts (db, k) }
        (DbIdx.num db)) k with
    | none => simp [timeouts_setTable, tlookup_tdelete_self]
    | some u => cases u <;> simp [timeouts_setTable, tlookup_tdelete_self]
  · exact incrby_timeouts s now db k byArg hck
  · show (handle_incrby (check_ttl s now db k) now db k (PyArg.pint 1)).1.timeouts
        = s.timeouts
    rw [hck]
    exact incrby_timeouts s now db k (PyArg.pint 1) hck
  · unfold handle_setnx
    cases hx : tlookup (getTable s (DbIdx.num db)) k <;> simp [timeouts_setTable]
  · unfold handle_lpush
    rw [hck]
    dsimp only
    cases hx : tlookup (getTable s (DbIdx.num db)) k with
    | none => simp [timeouts_setTable]
    | some u => cases u <;> simp [timeouts_setTable]
  · unfold handle_rpush
    rw [hck]
    dsimp only
    cases hx : tlookup (getTable s (DbIdx.num db)) k with
    | none => simp [timeouts_setTable]
    | some u => cases u <;> simp [timeouts_setTable]
  · unfold handle_lpop
    rw [hck]
    dsimp only
    cases hx : tlookup (getTable s (DbIdx.num db)) k with
    | none => simp [timeouts_setTable]
    | some u =>
      cases u with
      | list l => cases l <;> simp [timeouts_setTable]
      | str a => simp [timeouts_setTable]
      | hash a => simp [timeouts_setTable]
      | int a => simp [timeouts_setTable]
  · unfold handle_rpop
    rw [hck]
    dsimp only
    cases hx : tlookup (getTable s (DbIdx.num db)) k with
    | none => simp [timeouts_setTable]
    | some u =>
      cases u with
      | list l => cases hz : l.getLast? <;> simp [hz, timeouts_setTable]
      | str a => simp [timeouts_setTable]
      | hash a => simp [timeouts_setTable]
      | int a => simp [timeouts_setTable]
  · unfold handle_hset
    rw [hck]
    dsimp only
    cases hx : tlookup (getTable s (DbIdx.num db)) k with
    | none => simp [timeouts_setTable]
    | some u =>
      cases u with
      | hash hh => cases hz : tlookup hh f <;> simp [hz, timeouts_setTable]
      | str a => simp [timeouts_setTable]
      | list a => simp [timeouts_setTable]
      | int a => simp [timeouts_setTable]

/-- C6 witness: with `k ↦ "1"` under the stored deadline `"100"` (never
ordered below the clock) at time `0`, the amended theorem applies: `INCR k`
leaves the expiration table unchanged. -/
theorem C6_write_commands_amended_witness :
    (handle_incr (⟨[(DbIdx.num 0, [(("k"), Value.str ("1"))])],
        [((0, ("k")), TVal.tstr ("100"))]⟩ : SState) 0 0 ("k")).1.timeouts
      = [((0, ("k")), TVal.tstr ("100"))] :=
  (C6_write_commands_amended (⟨[(DbIdx.num 0, [(("k"), Value.str ("1"))])],
      [((0, ("k")), TVal.tstr ("100"))]⟩ : SState) 0 0 ("k") ("v") ("f") ("w")
      (PyArg.pint 1) (TVal.tstr ("100")) rfl rfl).2.2.2.1

theorem listPrefixB_self (l : List Char) : listPrefixB l l = true := by
  induction l with
  | nil => rfl
  | cons c t ih => simp [listPrefixB, ih]

theorem tlookup_mem_keys {α β : Type} [DecidableEq α] (l : List (α × β)) (k : α) (b : β)
    (h : tlookup l k = some b) : k ∈ l.map Prod.fst := by
  induction l with
  | nil => simp [tlookup] at h
  | cons p t ih =>
    obtain ⟨a, c⟩ := p
    by_cases ha : a = k
    · subst ha; simp
    · simp only [tlookup, if_neg ha] at h
      simp [ih h]

theorem publishGo_spec (channels : List (String × List Nat)) (ch msg : String)
    (subs : List Nat) (h : tlookup channels ch = some subs) :
    ∀ ps : List String, (∀ p ∈ ps, regexFreeB p.data = true) →
      ∃ ws, publishGo channels ch msg ps = some (ws, PyResult.ret Reply.ok) ∧
        (∀ w ∈ ws, w.2 = messageEnvelope ch msg ∧ w.1 ∈ subs) ∧
        (ch ∈ ps → ∀ c ∈ subs, (c, messageEnvelope ch msg) ∈ ws) := by
  intro ps
  induction ps with
  | nil =>
    intro _
    exact ⟨[], rfl, by simp, by simp⟩
  | cons p ps ih =>
    intro hlit
    have hp : regexFreeB p.data = true := hlit p (List.mem_cons_self p ps)
    obtain ⟨ws, hws, hall, hmem⟩ := ih (fun q hq => hlit q (List.mem_cons_of_mem p hq))
    have hmatch : reMatchLiteral p ch = some (listPrefixB p.data ch.data) := by
      unfold reMatchLiteral
      rw [hp]
      rfl
    by_cases hpre : listPrefixB p.data ch.data = true
    · have hgo : publishGo channels ch msg (p :: ps)
          = some ((subs.map fun c => (c, messageEnvelope ch msg)) ++ ws,
              PyResult.ret Reply.ok) := by
        simp only [publishGo, hmatch, hpre, h, hws]
      refine ⟨(subs.map fun c => (c, messageEnvelope ch msg)) ++ ws, hgo, ?_, ?_⟩
      · intro wr hw
        rcases List.mem_append.mp hw with hl | hr
        · rcases List.mem_map.mp hl with ⟨c, hc, hwc⟩
          subst hwc
          exact ⟨rfl, hc⟩
        · exact hall wr hr
      · intro _ c hc
        exact List.mem_append_left _ (List.mem_map.mpr ⟨c, hc, rfl⟩)
    · have hpre2 : listPrefixB p.data ch.data = false := by
        cases hx : listPrefixB p.data ch.data
        · rfl
        · exact absurd hx hpre
      have hgo : publishGo channels ch msg (p :: ps) = publishGo channels ch msg ps := by
        simp only [publishGo, hmatch, hpre2]
      refine ⟨ws, by rw [hgo]; exact hws, hall, ?_⟩
      intro hch c hc
      have hne : ch ≠ p := by
        intro hx
        subst hx
        exact absurd (listPrefixB_self ch.data) (by rw [hpre2]; simp)
      have hin : ch ∈ ps := by
        rcases List.mem_cons.mp hch with hx | hx
        · exact absurd hx hne
        · exact hx
      exact hmem hin c hc

/-- C7 amended: when every stored channel name is plain text to the regex
engine and channel `ch` has a subscriber entry, `PUBLISH ch msg` writes only
`[message, ch, msg]` envelopes, each addressed to a member of `ch`'s
subscriber set, and every subscriber of `ch` receives one (once per stored
name that matches a prefix of `ch`); no `pmessage` envelope is ever
produced (`PSUBSCRIBE` is a no-op `pass`), and the reply to the publisher
is `True`, encoded `+OK` — not the recipient count. -/
theorem C7_publish_amended (channels : List (String × List Nat)) (ch msg : String)
    (subs : List Nat)
    (hlit : ∀ p ∈ channels.map Prod.fst, regexFreeB p.data = true)
    (h : tlookup channels ch = some subs) :
    ∃ ws, handle_publish channels ch msg = some (ws, PyResult.ret Reply.ok) ∧
      (∀ w ∈ ws, w.2 = messageEnvelope ch msg ∧ w.1 ∈ subs) ∧
      (∀ c ∈ subs, (c, messageEnvelope ch msg) ∈ ws) := by
  obtain ⟨ws, hws, hall, hmem⟩ :=
    publishGo_spec channels ch msg subs h (channels.map Prod.fst) hlit
  exact ⟨ws, hws, hall, hmem (tlookup_mem_keys channels ch subs h)⟩

/-- C7 witness: with connection `0` subscribed to the metacharacter-free
name `news`, the amended theorem applies to `PUBLISH news hi`. -/
theorem C7_publish_amended_witness :
    ∃ ws, handle_publish [(("news"), [0])] ("news") ("hi")
        = some (ws, PyResult.ret Reply.ok) ∧
      (∀ w ∈ ws, w.2 = messageEnvelope ("news") ("hi") ∧ w.1 ∈ [0]) ∧
      (∀ c ∈ [0], (c, messageEnvelope ("news") ("hi")) ∈ ws) :=
  C7_publish_amended [(("news"), [0])] ("news") ("hi") [0] (by decide) rfl

end MiniRedis
